import Mathlib

/-!
Verification development for `services/trae-proxy/generate_certs.py`, a tool
that provisions a local CA and issues a CA-signed leaf certificate for one
domain by shelling out to openssl.

The embedding models:
* the filesystem as an association list from paths to file contents;
* the process state (`PState`): filesystem, the global `temp_files` registry,
  a counter feeding fresh key material, and an event trace recording, in
  order, every external command executed and every python-level file
  operation (temp-file creation, `shutil.move`, `os.remove`);
* the openssl boundary as an `Engine` record: per-command success status and
  the content the tool writes for each kind of invocation (key generation,
  self-signing, PKCS8 re-encoding, CSR construction, CA signing);
* `error()` / `sys.exit(1)` as the `Outcome.died` constructor carrying the
  state at abort time, and the `atexit` cleanup hook as a final
  `cleanup_temp_files` application on both the normal and the aborting exit
  path of `runProcess`.
-/

/-- Filesystem: list of (path, content) pairs with unique keys maintained by
`fsWrite`. A path absent from the list is an absent file. -/
abbrev FS := List (String × String)

/-- Read a file: `some content` when present, `none` when absent. -/
def fsRead : FS → String → Option String
  | [], _ => none
  | (q, c) :: t, p => if p = q then some c else fsRead t p

/-- Delete every entry for a path. -/
def fsRemove : FS → String → FS
  | [], _ => []
  | (q, c) :: t, p => if q = p then fsRemove t p else (q, c) :: fsRemove t p

/-- Write (create or overwrite) a file. -/
def fsWrite (fs : FS) (p c : String) : FS := (p, c) :: fsRemove fs p

/-- Existence test, as `os.path.exists`. -/
def fsExists (fs : FS) (p : String) : Bool := (fsRead fs p).isSome

/-- Effect of `shutil.move src dst`: the destination receives the source's
content and the source disappears. -/
def fsMove (fs : FS) (src dst : String) : FS :=
  fsWrite (fsRemove fs src) dst ((fsRead fs src).getD "")

/-- Fresh temporary path handed out by `tempfile.mkstemp` for the single
temp file a run creates; modeled as a fixed path under `/tmp`, disjoint by
construction from every `ca/...` artifact path. -/
def mkstempPath : String := "/tmp/tmpcfg"

/-- Whether `pat` occurs at the head of `l`. -/
def prefixOfList : List Char → List Char → Bool
  | [], _ => true
  | _ :: _, [] => false
  | a :: as, b :: bs => a == b && prefixOfList as bs

/-- Whether `pat` occurs anywhere inside `l`. -/
def hasSubList (l pat : List Char) : Bool :=
  match l with
  | [] => pat.isEmpty
  | _ :: t => prefixOfList pat l || hasSubList t pat

/-- Whether the string `pat` occurs inside the string `s`. -/
def strMentions (s pat : String) : Bool := hasSubList s.data pat.data

/-- Python's `str.strip`: drop leading and trailing whitespace. -/
def stripWS (s : String) : String :=
  let ws : Char → Bool := fun c => c == ' ' || c == '\n' || c == '\t' || c == '\r'
  String.mk (((s.data.dropWhile ws).reverse.dropWhile ws).reverse)

/-- Events recorded by a run, in execution order: external commands
(`run_command`), temp-file materialization (`create_temp_file`),
`shutil.move`, and `os.remove`. -/
inductive Ev where
  | cmd (c : String)
  | mkTemp (path content : String)
  | move (src dst : String)
  | del (path : String)
deriving DecidableEq

/-- Process state: the filesystem, the global `temp_files` registry, a
counter feeding fresh key material to the engine, and the event trace. -/
structure PState where
  fs : FS
  temp_files : List String
  ctr : Nat
  trace : List Ev
deriving DecidableEq

/-- Result of a program fragment: normal return, or `error()`-triggered
`sys.exit(1)` (`died`), both carrying the state at that moment. -/
inductive Outcome (α : Type) where
  | ok (a : α) (s : PState)
  | died (msg : String) (s : PState)
deriving DecidableEq

/-- Sequencing that propagates a fatal `sys.exit`. -/
def Outcome.andThen (o : Outcome Unit) (k : PState → Outcome α) : Outcome α :=
  match o with
  | .ok _ s => k s
  | .died m s => .died m s

/-- Contract with the external openssl engine (spec section 6): whether each
command line succeeds, its stderr text, and the bytes the tool writes for
each kind of invocation. `rsaKey` consumes a freshness counter, modeling the
randomness of key generation. -/
structure Engine where
  ok : String → Bool
  err : String → String
  rsaKey : Nat → String
  selfSigned : String → String
  pkcs8 : String → String
  csr : String → String → String → String
  sign : String → String → String → String
  serial : String

/-- Diagnostic produced by `run_command` on a failing command. -/
def cmdFailMsg (eng : Engine) (cmd : String) : String :=
  "命令执行失败: " ++ cmd ++ "\n" ++ eng.err cmd

/-- Append a `run_command` invocation to the trace. -/
def addCmd (c : String) (t : PState) : PState := { t with trace := t.trace ++ [Ev.cmd c] }

/-- Embedding of `run_command(command, check=True)`: record the command; on
success apply the engine's filesystem effect, on a non-zero exit call
`error()` with the command and its stderr. -/
def run_command (eng : Engine) (cmd : String) (eff : PState → PState) (s : PState) : Outcome Unit :=
  match eng.ok cmd with
  | true => Outcome.ok () (eff (addCmd cmd s))
  | false => Outcome.died (cmdFailMsg eng cmd) (addCmd cmd s)

/-- Embedding of `create_temp_file`: materialize the content at a fresh temp
path and register the path in `temp_files`. -/
def create_temp_file (content : String) (s : PState) : String × PState :=
  (mkstempPath,
    { s with
      fs := fsWrite s.fs mkstempPath content
      temp_files := s.temp_files ++ [mkstempPath]
      trace := s.trace ++ [Ev.mkTemp mkstempPath content] })

/-- Embedding of `os.unlink`: fails (raises) when the file is absent. -/
def unlinkFile (fs : FS) (p : String) : Except Unit FS :=
  if fsExists fs p then Except.ok (fsRemove fs p) else Except.error ()

/-- One iteration of the cleanup loop: `try: os.unlink(path) except: pass`. -/
def cleanupStep (fs : FS) (p : String) : FS :=
  match unlinkFile fs p with
  | Except.ok fs2 => fs2
  | Except.error _ => fs

/-- Embedding of `cleanup_temp_files`: best-effort unlink of every tracked
temp path; a failing unlink is swallowed and the loop continues. -/
def cleanup_temp_files (s : PState) : PState :=
  { s with fs := s.temp_files.foldl cleanupStep s.fs }

/-- Default content of the shared base request template `ca/openssl.cnf`
(string `openssl_cnf` in the source, transcribed verbatim). -/
def openssl_cnf : String := "
[ req ]
default_bits        = 2048
default_md          = sha256
default_keyfile     = privkey.pem
distinguished_name  = req_distinguished_name
req_extensions      = v3_req
x509_extensions     = v3_ca

[ req_distinguished_name ]
countryName                     = 国家代码 (2字符)
countryName_default             = CN
stateOrProvinceName             = 省/州
stateOrProvinceName_default     = State
localityName                    = 城市
localityName_default            = City
organizationName                = 组织名称
organizationName_default        = Organization
organizationalUnitName          = 组织单位名称
organizationalUnitName_default  = Unit
commonName                      = 通用名称
commonName_max                  = 64
commonName_default              = localhost
emailAddress                    = 电子邮件地址
emailAddress_max                = 64
emailAddress_default            = admin@example.com

[ v3_req ]
basicConstraints       = CA:FALSE
keyUsage               = nonRepudiation, digitalSignature, keyEncipherment
extendedKeyUsage       = serverAuth
subjectAltName         = @alt_names

[ v3_ca ]
basicConstraints       = critical, CA:true
subjectKeyIdentifier   = hash
authorityKeyIdentifier = keyid:always, issuer:always
keyUsage               = cRLSign, keyCertSign, digitalSignature, nonRepudiation, keyEncipherment, dataEncipherment
"

/-- Default content of the CA-extensions-only template `ca/v3_ca.cnf`. -/
def v3_ca_cnf : String := "
[ v3_ca ]
basicConstraints       = critical, CA:true
subjectKeyIdentifier   = hash
authorityKeyIdentifier = keyid:always, issuer:always
keyUsage               = cRLSign, keyCertSign, digitalSignature, nonRepudiation, keyEncipherment, dataEncipherment
"

/-- Default content of the leaf-extensions-only template `ca/v3_req.cnf`. -/
def v3_req_cnf : String := "
[ v3_req ]
basicConstraints       = CA:FALSE
keyUsage               = nonRepudiation, digitalSignature, keyEncipherment
extendedKeyUsage       = serverAuth
subjectAltName         = @alt_names
"

/-- Default content of the domain SAN block `ca/<domain>.cnf`. -/
def domain_cnf (domain : String) : String := "
[ alt_names ]
DNS.1 = " ++ domain ++ "
"

/-- Default content of the domain subject line `ca/<domain>.subj`. -/
def domain_subj (domain : String) : String :=
  "/C=CN/ST=State/L=City/O=Organization/OU=Unit/CN=" ++ domain

/-- Path of the leaf private key for a domain. -/
def keyPath (d : String) : String := "ca/" ++ d ++ ".key"

/-- Path of the transient PKCS#8 re-encoding of the leaf key. -/
def pk8Path (d : String) : String := "ca/" ++ d ++ ".key.pkcs8"

/-- Path of the certificate signing request for a domain. -/
def csrPath (d : String) : String := "ca/" ++ d ++ ".csr"

/-- Path of the signed leaf certificate for a domain. -/
def crtPath (d : String) : String := "ca/" ++ d ++ ".crt"

/-- Path of the domain SAN block. -/
def cnfPath (d : String) : String := "ca/" ++ d ++ ".cnf"

/-- Path of the domain subject line. -/
def subjPath (d : String) : String := "ca/" ++ d ++ ".subj"

/-- Validity in days of the self-signed CA certificate (`-days 36500`). -/
def caDays : Nat := 36500

/-- Validity in days of the signed leaf certificate (`-days 365`). -/
def leafDays : Nat := 365

/-- Command generating the CA private key. -/
def caKeyCmd : String := "openssl genrsa -out ca/ca.key 2048"

/-- Command producing the self-signed CA certificate from a hard-coded
subject, with no configuration file and no extension flags. -/
def caCertCmd : String :=
  "openssl req -new -x509 -days " ++ toString caDays ++
  " -key ca/ca.key -out ca/ca.crt -subj \"/C=CN/ST=State/L=City/O=TraeProxy CA/OU=TraeProxy/CN=TraeProxy Root CA\""

/-- Command generating the leaf private key for a domain. -/
def leafKeyCmd (d : String) : String := "openssl genrsa -out ca/" ++ d ++ ".key 2048"

/-- Command re-encoding the leaf key into PKCS#8. -/
def pkcs8Cmd (d : String) : String :=
  "openssl pkcs8 -topk8 -nocrypt -in ca/" ++ d ++ ".key -out ca/" ++ d ++ ".key.pkcs8"

/-- Command building the CSR from the merged profile and subject line. -/
def csrCmd (d temp sj : String) : String :=
  "openssl req -reqexts v3_req -sha256 -new -key ca/" ++ d ++ ".key -out ca/" ++ d ++
  ".csr -config " ++ temp ++ " -subj \"" ++ sj ++ "\""

/-- Command signing the CSR with the CA key and certificate. -/
def signCmd (d temp : String) : String :=
  "openssl x509 -req -days " ++ toString leafDays ++ " -in ca/" ++ d ++
  ".csr -CA ca/ca.crt -CAkey ca/ca.key -CAcreateserial -out ca/" ++ d ++
  ".crt -extfile " ++ temp ++ " -extensions v3_req"

/-- Write a file only when it does not already exist (the `if not
os.path.exists` pattern of `create_default_config_files`). -/
def writeIfAbsent (fs : FS) (p c : String) : FS :=
  if fsExists fs p then fs else fsWrite fs p c

/-- Embedding of `create_default_config_files(domain)`: create-if-absent for
the three shared templates and the two domain-specific files, in source
order. (The `os.makedirs("ca", exist_ok=True)` call has no observable effect
in the path model and is omitted.) -/
def create_default_config_files (domain : String) (fs : FS) : FS :=
  let f1 := writeIfAbsent fs "ca/openssl.cnf" openssl_cnf
  let f2 := writeIfAbsent f1 "ca/v3_ca.cnf" v3_ca_cnf
  let f3 := writeIfAbsent f2 "ca/v3_req.cnf" v3_req_cnf
  let f4 := writeIfAbsent f3 (cnfPath domain) (domain_cnf domain)
  writeIfAbsent f4 (subjPath domain) (domain_subj domain)

/-- Filesystem effect of `openssl genrsa -out ca/ca.key 2048`: fresh key
material overwrites `ca/ca.key`. -/
def caKeyEff (eng : Engine) (t : PState) : PState :=
  { t with fs := fsWrite t.fs "ca/ca.key" (eng.rsaKey t.ctr), ctr := t.ctr + 1 }

/-- Filesystem effect of the self-signed CA certificate command: a
certificate derived from the key now at `ca/ca.key` overwrites `ca/ca.crt`. -/
def caCertEff (eng : Engine) (t : PState) : PState :=
  { t with fs := fsWrite t.fs "ca/ca.crt" (eng.selfSigned ((fsRead t.fs "ca/ca.key").getD "")) }

/-- Embedding of `generate_ca_cert()`: unconditionally regenerate the CA key
and self-signed certificate; no existence check of any prior CA state. -/
def generate_ca_cert (eng : Engine) (s : PState) : Outcome Unit :=
  Outcome.andThen (run_command eng caKeyCmd (caKeyEff eng) s) fun t1 =>
  Outcome.andThen (run_command eng caCertCmd (caCertEff eng) t1) fun t2 =>
  Outcome.ok () t2

/-- The six artifacts `generate_server_cert` requires, in check order. -/
def requiredFiles (domain : String) : List String :=
  ["ca/openssl.cnf", "ca/v3_req.cnf", cnfPath domain, subjPath domain,
   "ca/ca.key", "ca/ca.crt"]

/-- First required artifact missing from the filesystem, if any (the source
loop `error`s out at the first miss). -/
def firstMissing (fs : FS) (paths : List String) : Option String :=
  paths.find? (fun p => !(fsExists fs p))

/-- Merged profile: base template, newline, leaf-extensions template,
newline, domain SAN block — concatenated in exactly that order. -/
def mergedOf (s : PState) (d : String) : String :=
  (fsRead s.fs "ca/openssl.cnf").getD "" ++ "\n" ++
  (fsRead s.fs "ca/v3_req.cnf").getD "" ++ "\n" ++
  (fsRead s.fs (cnfPath d)).getD ""

/-- Subject line read from `ca/<domain>.subj` and stripped, as the source
does with `.strip()`. -/
def subjOf (s : PState) (d : String) : String :=
  stripWS ((fsRead s.fs (subjPath d)).getD "")

/-- Filesystem effect of leaf key generation: fresh key material overwrites
`ca/<domain>.key`. -/
def leafKeyEff (eng : Engine) (d : String) (t : PState) : PState :=
  { t with fs := fsWrite t.fs (keyPath d) (eng.rsaKey t.ctr), ctr := t.ctr + 1 }

/-- Filesystem effect of the PKCS#8 conversion: writes
`ca/<domain>.key.pkcs8` derived from the current `ca/<domain>.key`. -/
def pkcs8Eff (eng : Engine) (d : String) (t : PState) : PState :=
  { t with fs := fsWrite t.fs (pk8Path d) (eng.pkcs8 ((fsRead t.fs (keyPath d)).getD "")) }

/-- `shutil.move` of the PKCS#8 file over the original key. -/
def moveKeyEff (d : String) (t : PState) : PState :=
  { t with
    fs := fsMove t.fs (pk8Path d) (keyPath d)
    trace := t.trace ++ [Ev.move (pk8Path d) (keyPath d)] }

/-- Filesystem effect of CSR construction: writes `ca/<domain>.csr` from the
current key, the merged profile temp file and the subject line. -/
def csrEff (eng : Engine) (d temp sj : String) (t : PState) : PState :=
  { t with
    fs := fsWrite t.fs (csrPath d)
      (eng.csr ((fsRead t.fs (keyPath d)).getD "") ((fsRead t.fs temp).getD "") sj) }

/-- Filesystem effect of CA signing: allocates serial state at `ca/ca.srl`
(`-CAcreateserial`) and writes the leaf certificate. -/
def signEff (eng : Engine) (d : String) (t : PState) : PState :=
  { t with
    fs := fsWrite (fsWrite t.fs "ca/ca.srl" eng.serial) (crtPath d)
      (eng.sign ((fsRead t.fs (csrPath d)).getD "") ((fsRead t.fs "ca/ca.crt").getD "")
        ((fsRead t.fs "ca/ca.key").getD "")) }

/-- `os.remove` of the CSR once the leaf certificate exists. -/
def removeCsrEff (d : String) (t : PState) : PState :=
  { t with fs := fsRemove t.fs (csrPath d), trace := t.trace ++ [Ev.del (csrPath d)] }

/-- Embedding of `generate_server_cert(domain)`: pre-flight existence check
of the six required artifacts (`error` at the first miss, before anything
else happens), then merge, temp-file materialization, key generation,
PKCS#8 normalization, CSR, signing, and CSR removal, in source order. -/
def generate_server_cert (eng : Engine) (d : String) (s : PState) : Outcome Unit :=
  match firstMissing s.fs (requiredFiles d) with
  | some p => Outcome.died ("缺少必要文件: " ++ p) s
  | none =>
    let sj := subjOf s d
    let pr := create_temp_file (mergedOf s d) s
    Outcome.andThen (run_command eng (leafKeyCmd d) (leafKeyEff eng d) pr.2) fun t1 =>
    Outcome.andThen (run_command eng (pkcs8Cmd d) (pkcs8Eff eng d) t1) fun t2 =>
    Outcome.andThen (run_command eng (csrCmd d pr.1 sj) (csrEff eng d pr.1 sj) (moveKeyEff d t2)) fun t4 =>
    Outcome.andThen (run_command eng (signCmd d pr.1) (signEff eng d) t4) fun t5 =>
    Outcome.ok () (removeCsrEff d t5)

/-- Embedding of `check_openssl()`: the bare `except` catches the
`SystemExit` of the inner `error` and reports the engine as unavailable. -/
def check_openssl (eng : Engine) (s : PState) : Outcome Unit :=
  match run_command eng "openssl version" (fun t => t) s with
  | Outcome.ok _ t => Outcome.ok () t
  | Outcome.died _ t => Outcome.died "未找到OpenSSL。请确保OpenSSL已安装并在PATH中。" t

/-- Embedding of `main()` for a fixed domain: engine check, config
materialization, CA issuance, leaf issuance. -/
def mainRun (eng : Engine) (domain : String) (s : PState) : Outcome Unit :=
  Outcome.andThen (check_openssl eng s) fun s1 =>
  Outcome.andThen (generate_ca_cert eng { s1 with fs := create_default_config_files domain s1.fs }) fun s3 =>
  generate_server_cert eng domain s3

/-- Whole-process run: `main` plus the `atexit`-registered
`cleanup_temp_files`, which fires on the normal exit path and on the
`sys.exit(1)` path alike, together with the process exit code. -/
def runProcess (eng : Engine) (domain : String) (s : PState) : PState × Nat :=
  match mainRun eng domain s with
  | Outcome.ok _ t => (cleanup_temp_files t, 0)
  | Outcome.died _ t => (cleanup_temp_files t, 1)

/-- State effect of `create_temp_file` alone. -/
def mkTempEff (content : String) (s : PState) : PState :=
  { s with
    fs := fsWrite s.fs mkstempPath content
    temp_files := s.temp_files ++ [mkstempPath]
    trace := s.trace ++ [Ev.mkTemp mkstempPath content] }

/-- State after a fully successful `generate_ca_cert`. -/
def caFinal (eng : Engine) (s : PState) : PState :=
  caCertEff eng (addCmd caCertCmd (caKeyEff eng (addCmd caKeyCmd s)))

/-- State after a fully successful `generate_server_cert`. -/
def leafFinal (eng : Engine) (d : String) (s : PState) : PState :=
  removeCsrEff d
    (signEff eng d
      (addCmd (signCmd d mkstempPath)
        (csrEff eng d mkstempPath (subjOf s d)
          (addCmd (csrCmd d mkstempPath (subjOf s d))
            (moveKeyEff d
              (pkcs8Eff eng d
                (addCmd (pkcs8Cmd d)
                  (leafKeyEff eng d
                    (addCmd (leafKeyCmd d)
                      (mkTempEff (mergedOf s d) s))))))))))

/-- State at the moment `generate_server_cert` aborts inside a failing
CA-signing command (the CSR has been written, the `os.remove` never runs). -/
def abortAtSign (eng : Engine) (d : String) (s : PState) : PState :=
  addCmd (signCmd d mkstempPath)
    (csrEff eng d mkstempPath (subjOf s d)
      (addCmd (csrCmd d mkstempPath (subjOf s d))
        (moveKeyEff d
          (pkcs8Eff eng d
            (addCmd (pkcs8Cmd d)
              (leafKeyEff eng d
                (addCmd (leafKeyCmd d)
                  (mkTempEff (mergedOf s d) s))))))))

/-- Concrete engine for witnesses: every command succeeds, generated
artifacts are distinct tagged strings. -/
def engW : Engine where
  ok := fun _ => true
  err := fun _ => ""
  rsaKey := fun n => "RSA" ++ toString n
  selfSigned := fun k => "CERT:" ++ k
  pkcs8 := fun k => "P8:" ++ k
  csr := fun k c sj => "CSR:" ++ k ++ "|" ++ c ++ "|" ++ sj
  sign := fun r crt key => "SIGNED:" ++ r ++ "|" ++ crt ++ "|" ++ key
  serial := "01"

/-- Concrete engine whose CA-signing command fails and every other command
succeeds. -/
def engSignFail : Engine :=
  { engW with ok := fun c => !(c == signCmd "example.com" mkstempPath) }

/-- Concrete state with every artifact `generate_server_cert` requires. -/
def stFull : PState where
  fs := [("ca/openssl.cnf", "A"), ("ca/v3_ca.cnf", "B"), ("ca/v3_req.cnf", "C"),
         ("ca/example.com.cnf", "D"), ("ca/example.com.subj", " S "),
         ("ca/ca.key", "K0"), ("ca/ca.crt", "T0")]
  temp_files := []
  ctr := 0
  trace := []

/-- Concrete state where both the CA key and the CA certificate are absent
while every template artifact is present. -/
def cexSt : PState where
  fs := [("ca/openssl.cnf", "A"), ("ca/v3_ca.cnf", "B"), ("ca/v3_req.cnf", "C"),
         ("ca/example.com.cnf", "D"), ("ca/example.com.subj", " S ")]
  temp_files := []
  ctr := 0
  trace := []

/-- Concrete state with two registered temp files of which only the first
still exists on disk. -/
def stTemps : PState where
  fs := [("/tmp/a", "x"), ("ca/ca.key", "K")]
  temp_files := ["/tmp/a", "/tmp/b"]
  ctr := 0
  trace := []

/-- Result state of a successful concrete `generate_ca_cert` run. -/
def caResA : PState :=
  match generate_ca_cert engW stFull with
  | Outcome.ok _ t => t
  | Outcome.died _ t => t

/-- Result state of a second `generate_ca_cert` run on top of the first. -/
def caResB : PState :=
  match generate_ca_cert engW caResA with
  | Outcome.ok _ t => t
  | Outcome.died _ t => t

/-- Result state of a successful concrete `generate_server_cert` run. -/
def srvRes : PState :=
  match generate_server_cert engW "example.com" stFull with
  | Outcome.ok _ t => t
  | Outcome.died _ t => t

theorem fsRead_remove_self (fs : FS) (p : String) : fsRead (fsRemove fs p) p = none := by
  induction fs with
  | nil => rfl
  | cons e t ih =>
    obtain ⟨q, c⟩ := e
    by_cases h : q = p
    · simp [fsRemove, h, ih]
    · simp [fsRemove, h, fsRead, Ne.symm h, ih]

theorem fsRead_remove_ne (fs : FS) (p q : String) (h : q ≠ p) :
    fsRead (fsRemove fs p) q = fsRead fs q := by
  induction fs with
  | nil => rfl
  | cons e t ih =>
    obtain ⟨r, c⟩ := e
    by_cases hr : r = p
    · have : q ≠ r := fun e2 => h (e2 ▸ hr)
      simp [fsRemove, hr, fsRead, this, h, ih]
    · by_cases hq : q = r
      · simp [fsRemove, hr, fsRead, hq]
      · simp [fsRemove, hr, fsRead, hq, ih]

theorem fsRead_write_self (fs : FS) (p c : String) : fsRead (fsWrite fs p c) p = some c := by
  simp [fsWrite, fsRead]

theorem fsRead_write_ne (fs : FS) (p c : String) (q : String) (h : q ≠ p) :
    fsRead (fsWrite fs p c) q = fsRead fs q := by
  simp [fsWrite, fsRead, h, fsRead_remove_ne fs p q h]

theorem fsExists_write_self (fs : FS) (p c : String) : fsExists (fsWrite fs p c) p = true := by
  simp [fsExists, fsRead_write_self]

theorem fsExists_eq_false_iff (fs : FS) (p : String) :
    fsExists fs p = false ↔ fsRead fs p = none := by
  simp [fsExists, Option.isSome]
  cases fsRead fs p <;> simp

theorem fsExists_eq_true_iff (fs : FS) (p : String) :
    fsExists fs p = true ↔ ∃ c, fsRead fs p = some c := by
  simp [fsExists, Option.isSome]
  cases fsRead fs p <;> simp

/-- Characters of an appended string. -/
theorem str_data_append (a b : String) : (a ++ b).data = a.data ++ b.data :=
  String.data_append a b

/-- Strings with different character lists differ. -/
theorem str_ne_of_data_ne (a b : String) (h : a.data ≠ b.data) : a ≠ b :=
  fun e => h (congrArg String.data e)

/-- String append is associative. -/
theorem str_append_assoc (a b c : String) : (a ++ b) ++ c = a ++ (b ++ c) :=
  String.append_assoc a b c

/-- A path of the form `ca/...` is never the mkstemp path (their first
characters differ). -/
theorem caPre_ne_tmp (x : String) : ("ca/" ++ x) ≠ mkstempPath := by
  intro e
  have e2 : ("ca/" ++ x).data = mkstempPath.data := congrArg String.data e
  rw [str_data_append] at e2
  have e3 : 'c' :: 'a' :: '/' :: x.data = '/' :: 't' :: 'm' :: 'p' :: '/' :: 't' :: 'm' :: 'p' :: 'c' :: 'f' :: 'g' :: [] := e2
  injection e3 with h1 _
  exact absurd h1 (by decide)

/-- Appending different tails to the same string gives different strings. -/
theorem appendLeft_ne (p x y : String) (h : x.data ≠ y.data) : p ++ x ≠ p ++ y := by
  intro e
  have e2 : p.data ++ x.data = p.data ++ y.data := by
    have := congrArg String.data e
    rwa [str_data_append, str_data_append] at this
  exact h (List.append_cancel_left e2)

/-- Appending the same tail to different strings gives different strings. -/
theorem appendRight_inj (x y p : String) (h : x ++ p = y ++ p) : x = y := by
  have e2 : x.data ++ p.data = y.data ++ p.data := by
    have := congrArg String.data h
    rwa [str_data_append, str_data_append] at this
  have : x.data = y.data := List.append_cancel_right e2
  cases x; cases y; exact congrArg String.mk this

/-- Strings whose reversed character lists have different heads differ. -/
theorem str_ne_of_revHead (a b : String)
    (h : a.data.reverse.head? ≠ b.data.reverse.head?) : a ≠ b :=
  fun e => h (by rw [e])

/-- The last character of `p ++ q` is the last character of a non-empty `q`. -/
theorem revHead_append (p q : String) (c : Char)
    (h : q.data.reverse.head? = some c) :
    (p ++ q).data.reverse.head? = some c := by
  rw [str_data_append, List.reverse_append]
  cases hq : q.data.reverse with
  | nil => rw [hq] at h; exact absurd h (by simp)
  | cons a t =>
    rw [hq] at h
    simpa using h

theorem andThen_ok (s : PState) (k : PState → Outcome α) :
    Outcome.andThen (Outcome.ok () s) k = k s := rfl

theorem andThen_died (m : String) (s : PState) (k : PState → Outcome α) :
    Outcome.andThen (Outcome.died m s) k = Outcome.died m s := rfl

theorem key_ne_csr (d : String) : keyPath d ≠ csrPath d := by
  simp only [keyPath, csrPath]
  exact appendLeft_ne ("ca/" ++ d) ".key" ".csr" (by decide)

theorem key_ne_crt (d : String) : keyPath d ≠ crtPath d := by
  simp only [keyPath, crtPath]
  exact appendLeft_ne ("ca/" ++ d) ".key" ".crt" (by decide)

theorem pk8_ne_key (d : String) : pk8Path d ≠ keyPath d := by
  simp only [keyPath, pk8Path]
  exact appendLeft_ne ("ca/" ++ d) ".key.pkcs8" ".key" (by decide)

theorem pk8_ne_csr (d : String) : pk8Path d ≠ csrPath d := by
  simp only [csrPath, pk8Path]
  exact appendLeft_ne ("ca/" ++ d) ".key.pkcs8" ".csr" (by decide)

theorem pk8_ne_crt (d : String) : pk8Path d ≠ crtPath d := by
  simp only [crtPath, pk8Path]
  exact appendLeft_ne ("ca/" ++ d) ".key.pkcs8" ".crt" (by decide)

theorem csr_ne_crt (d : String) : csrPath d ≠ crtPath d := by
  simp only [csrPath, crtPath]
  exact appendLeft_ne ("ca/" ++ d) ".csr" ".crt" (by decide)

theorem key_ne_srl (d : String) : keyPath d ≠ "ca/ca.srl" := by
  apply str_ne_of_revHead
  rw [show keyPath d = ("ca/" ++ d) ++ ".key" from rfl]
  rw [revHead_append ("ca/" ++ d) ".key" 'y' rfl]
  decide

theorem pk8_ne_srl (d : String) : pk8Path d ≠ "ca/ca.srl" := by
  apply str_ne_of_revHead
  rw [show pk8Path d = ("ca/" ++ d) ++ ".key.pkcs8" from rfl]
  rw [revHead_append ("ca/" ++ d) ".key.pkcs8" '8' rfl]
  decide

theorem csr_ne_srl (d : String) : csrPath d ≠ "ca/ca.srl" := by
  apply str_ne_of_revHead
  rw [show csrPath d = ("ca/" ++ d) ++ ".csr" from rfl]
  rw [revHead_append ("ca/" ++ d) ".csr" 'r' rfl]
  decide

theorem key_ne_tmp (d : String) : keyPath d ≠ mkstempPath := by
  rw [show keyPath d = "ca/" ++ (d ++ ".key") from str_append_assoc "ca/" d ".key"]
  exact caPre_ne_tmp (d ++ ".key")

theorem pk8_ne_tmp (d : String) : pk8Path d ≠ mkstempPath := by
  rw [show pk8Path d = "ca/" ++ (d ++ ".key.pkcs8") from str_append_assoc "ca/" d ".key.pkcs8"]
  exact caPre_ne_tmp (d ++ ".key.pkcs8")

theorem csr_ne_tmp (d : String) : csrPath d ≠ mkstempPath := by
  rw [show csrPath d = "ca/" ++ (d ++ ".csr") from str_append_assoc "ca/" d ".csr"]
  exact caPre_ne_tmp (d ++ ".csr")

theorem crt_ne_tmp (d : String) : crtPath d ≠ mkstempPath := by
  rw [show crtPath d = "ca/" ++ (d ++ ".crt") from str_append_assoc "ca/" d ".crt"]
  exact caPre_ne_tmp (d ++ ".crt")

theorem srl_ne_tmp : ("ca/ca.srl" : String) ≠ mkstempPath := by decide

theorem gen_ca_ok_elim (eng : Engine) (s t : PState)
    (h : generate_ca_cert eng s = Outcome.ok () t) :
    eng.ok caKeyCmd = true ∧ eng.ok caCertCmd = true ∧ t = caFinal eng s := by
  cases h1 : eng.ok caKeyCmd with
  | false => simp [generate_ca_cert, run_command, h1, Outcome.andThen] at h
  | true =>
    cases h2 : eng.ok caCertCmd with
    | false => simp [generate_ca_cert, run_command, h1, h2, Outcome.andThen] at h
    | true =>
      refine ⟨rfl, rfl, ?_⟩
      simp [generate_ca_cert, run_command, h1, h2, Outcome.andThen] at h
      rw [← h]
      rfl

theorem gen_server_ok_elim (eng : Engine) (d : String) (s t : PState)
    (h : generate_server_cert eng d s = Outcome.ok () t) :
    firstMissing s.fs (requiredFiles d) = none ∧
    eng.ok (leafKeyCmd d) = true ∧ eng.ok (pkcs8Cmd d) = true ∧
    eng.ok (csrCmd d mkstempPath (subjOf s d)) = true ∧
    eng.ok (signCmd d mkstempPath) = true ∧
    t = leafFinal eng d s := by
  cases hfm : firstMissing s.fs (requiredFiles d) with
  | some p => simp [generate_server_cert, hfm] at h
  | none =>
    cases h1 : eng.ok (leafKeyCmd d) with
    | false =>
      simp [generate_server_cert, hfm, run_command, create_temp_file, h1, Outcome.andThen] at h
    | true =>
      cases h2 : eng.ok (pkcs8Cmd d) with
      | false =>
        simp [generate_server_cert, hfm, run_command, create_temp_file, h1, h2, Outcome.andThen] at h
      | true =>
        cases h3 : eng.ok (csrCmd d mkstempPath (subjOf s d)) with
        | false =>
          simp [generate_server_cert, hfm, run_command, create_temp_file, h1, h2, h3, Outcome.andThen] at h
        | true =>
          cases h4 : eng.ok (signCmd d mkstempPath) with
          | false =>
            simp [generate_server_cert, hfm, run_command, create_temp_file, h1, h2, h3, h4, Outcome.andThen] at h
          | true =>
            refine ⟨rfl, rfl, rfl, rfl, rfl, ?_⟩
            simp [generate_server_cert, hfm, run_command, create_temp_file, h1, h2, h3, h4, Outcome.andThen] at h
            rw [← h]
            rfl

theorem gen_server_sign_fail (eng : Engine) (d : String) (s : PState)
    (hfm : firstMissing s.fs (requiredFiles d) = none)
    (h1 : eng.ok (leafKeyCmd d) = true) (h2 : eng.ok (pkcs8Cmd d) = true)
    (h3 : eng.ok (csrCmd d mkstempPath (subjOf s d)) = true)
    (h4 : eng.ok (signCmd d mkstempPath) = false) :
    generate_server_cert eng d s =
      Outcome.died (cmdFailMsg eng (signCmd d mkstempPath)) (abortAtSign eng d s) := by
  simp [generate_server_cert, hfm, run_command, create_temp_file, h1, h2, h3, h4, Outcome.andThen]
  rfl

theorem cleanupStep_self (fs : FS) (p : String) : fsRead (cleanupStep fs p) p = none := by
  unfold cleanupStep unlinkFile
  cases he : fsExists fs p with
  | false =>
    simp
    exact (fsExists_eq_false_iff fs p).mp he
  | true => simp [fsRead_remove_self]

theorem cleanupStep_preserve_none (fs : FS) (p q : String) (h : fsRead fs p = none) :
    fsRead (cleanupStep fs q) p = none := by
  unfold cleanupStep unlinkFile
  cases he : fsExists fs q with
  | false => simpa using h
  | true =>
    by_cases hpq : p = q
    · simp [hpq, fsRead_remove_self]
    · simp [fsRead_remove_ne fs q p hpq, h]

theorem cleanupStep_ne (fs : FS) (p q : String) (h : p ≠ q) :
    fsRead (cleanupStep fs q) p = fsRead fs p := by
  unfold cleanupStep unlinkFile
  cases he : fsExists fs q with
  | false => simp
  | true => simp [fsRead_remove_ne fs q p h]

theorem foldl_cleanup_none (l : List String) (fs : FS) (p : String) (h : fsRead fs p = none) :
    fsRead (l.foldl cleanupStep fs) p = none := by
  induction l generalizing fs with
  | nil => simpa using h
  | cons q t ih => exact ih (cleanupStep fs q) (cleanupStep_preserve_none fs p q h)

theorem foldl_cleanup_mem (l : List String) (fs : FS) (p : String) (h : p ∈ l) :
    fsRead (l.foldl cleanupStep fs) p = none := by
  induction l generalizing fs with
  | nil => simp at h
  | cons q t ih =>
    rcases List.mem_cons.mp h with hq | ht
    · subst hq
      exact foldl_cleanup_none t (cleanupStep fs p) p (cleanupStep_self fs p)
    · exact ih (cleanupStep fs q) ht

theorem foldl_cleanup_not_mem (l : List String) (fs : FS) (p : String) (h : p ∉ l) :
    fsRead (l.foldl cleanupStep fs) p = fsRead fs p := by
  induction l generalizing fs with
  | nil => rfl
  | cons q t ih =>
    have hpq : p ≠ q := fun e => h (e ▸ List.mem_cons_self q t)
    have ht : p ∉ t := fun e => h (List.mem_cons_of_mem q e)
    rw [List.foldl_cons, ih (cleanupStep fs q) ht, cleanupStep_ne fs p q hpq]

theorem foldl_cleanup_all_absent (l : List String) (fs : FS)
    (h : ∀ p, p ∈ l → fsRead fs p = none) : l.foldl cleanupStep fs = fs := by
  induction l with
  | nil => rfl
  | cons q t ih =>
    have hq : cleanupStep fs q = fs := by
      unfold cleanupStep unlinkFile
      have : fsExists fs q = false :=
        (fsExists_eq_false_iff fs q).mpr (h q (List.mem_cons_self q t))
      simp [this]
    rw [List.foldl_cons, hq]
    exact ih (fun p hp => h p (List.mem_cons_of_mem q hp))

theorem cleanup_removes (s : PState) (p : String) (h : p ∈ s.temp_files) :
    fsRead (cleanup_temp_files s).fs p = none :=
  foldl_cleanup_mem s.temp_files s.fs p h

theorem cleanup_keeps (s : PState) (p : String) (h : p ∉ s.temp_files) :
    fsRead (cleanup_temp_files s).fs p = fsRead s.fs p :=
  foldl_cleanup_not_mem s.temp_files s.fs p h

theorem wia_exists_self (fs : FS) (p c : String) :
    fsExists (writeIfAbsent fs p c) p = true := by
  unfold writeIfAbsent
  cases he : fsExists fs p with
  | false => simp [fsExists_write_self]
  | true => simpa using he

theorem wia_exists_mono (fs : FS) (p c q : String) (h : fsExists fs q = true) :
    fsExists (writeIfAbsent fs p c) q = true := by
  unfold writeIfAbsent
  cases he : fsExists fs p with
  | true => simpa using h
  | false =>
    by_cases hqp : q = p
    · simp [hqp, fsExists_write_self]
    · simpa [fsExists, fsRead_write_ne fs p c q hqp] using h

theorem wia_skip (fs : FS) (p c : String) (h : fsExists fs p = true) :
    writeIfAbsent fs p c = fs := by
  simp [writeIfAbsent, h]

theorem wia_read_self (fs : FS) (p c : String) :
    fsRead (writeIfAbsent fs p c) p = some ((fsRead fs p).getD c) := by
  unfold writeIfAbsent
  cases he : fsExists fs p with
  | false =>
    have : fsRead fs p = none := (fsExists_eq_false_iff fs p).mp he
    simp [this, fsRead_write_self]
  | true =>
    obtain ⟨v, hv⟩ := (fsExists_eq_true_iff fs p).mp he
    simp [hv]

theorem wia_read_preserve (fs : FS) (p c q : String) (h : fsExists fs q = true) :
    fsRead (writeIfAbsent fs p c) q = fsRead fs q := by
  unfold writeIfAbsent
  cases he : fsExists fs p with
  | true => simp
  | false =>
    by_cases hqp : q = p
    · rw [hqp] at h; rw [h] at he; exact absurd he (by simp)
    · simp [fsRead_write_ne fs p c q hqp]

theorem wia_read_ne (fs : FS) (p c q : String) (h : q ≠ p) :
    fsRead (writeIfAbsent fs p c) q = fsRead fs q := by
  unfold writeIfAbsent
  cases he : fsExists fs p with
  | true => simp
  | false => simp [fsRead_write_ne fs p c q h]

theorem subj_ne_cnf (d : String) : subjPath d ≠ cnfPath d := by
  simp only [subjPath, cnfPath]
  exact appendLeft_ne ("ca/" ++ d) ".subj" ".cnf" (by decide)

theorem subj_ne_openssl (d : String) : subjPath d ≠ "ca/openssl.cnf" := by
  apply str_ne_of_revHead
  rw [show subjPath d = ("ca/" ++ d) ++ ".subj" from rfl]
  rw [revHead_append ("ca/" ++ d) ".subj" 'j' rfl]
  decide

theorem subj_ne_v3ca (d : String) : subjPath d ≠ "ca/v3_ca.cnf" := by
  apply str_ne_of_revHead
  rw [show subjPath d = ("ca/" ++ d) ++ ".subj" from rfl]
  rw [revHead_append ("ca/" ++ d) ".subj" 'j' rfl]
  decide

theorem subj_ne_v3req (d : String) : subjPath d ≠ "ca/v3_req.cnf" := by
  apply str_ne_of_revHead
  rw [show subjPath d = ("ca/" ++ d) ++ ".subj" from rfl]
  rw [revHead_append ("ca/" ++ d) ".subj" 'j' rfl]
  decide

theorem cnf_ne_fixed (d nm : String) (hd : d ≠ nm) : cnfPath d ≠ ("ca/" ++ nm) ++ ".cnf" := by
  intro e
  have e0 : ("ca/" ++ d) ++ ".cnf" = ("ca/" ++ nm) ++ ".cnf" := e
  have e1 : ("ca/" ++ d) = ("ca/" ++ nm) := appendRight_inj _ _ ".cnf" e0
  have e2 : d.data = nm.data := by
    have := congrArg String.data e1
    rw [str_data_append, str_data_append] at this
    exact List.append_cancel_left this
  exact hd (by cases d; cases nm; exact congrArg String.mk e2)

theorem cnfPath_ne_openssl (d : String) (hd : d ≠ "openssl") : cnfPath d ≠ "ca/openssl.cnf" := by
  have e : ("ca/openssl.cnf" : String) = ("ca/" ++ "openssl") ++ ".cnf" := by decide
  rw [e]
  exact cnf_ne_fixed d "openssl" hd

theorem cnfPath_ne_v3ca (d : String) (hd : d ≠ "v3_ca") : cnfPath d ≠ "ca/v3_ca.cnf" := by
  have e : ("ca/v3_ca.cnf" : String) = ("ca/" ++ "v3_ca") ++ ".cnf" := by decide
  rw [e]
  exact cnf_ne_fixed d "v3_ca" hd

theorem cnfPath_ne_v3req (d : String) (hd : d ≠ "v3_req") : cnfPath d ≠ "ca/v3_req.cnf" := by
  have e : ("ca/v3_req.cnf" : String) = ("ca/" ++ "v3_req") ++ ".cnf" := by decide
  rw [e]
  exact cnf_ne_fixed d "v3_req" hd

/-- C2: config materialization is idempotent: each of the three shared
template files and the two domain-specific files is written with its fixed
default content only when absent, existing content is never overwritten
(`(fsRead fs p).getD default` reads as: the pre-existing bytes if the file
was there, the default otherwise), and a second `create_default_config_files`
run leaves the filesystem byte-identical to the first. The domain SAN file
conjunct is stated for domains that do not alias a shared template name. -/
theorem c2_config_idempotent (d : String) (fs : FS) :
    create_default_config_files d (create_default_config_files d fs) =
      create_default_config_files d fs ∧
    fsRead (create_default_config_files d fs) "ca/openssl.cnf" =
      some ((fsRead fs "ca/openssl.cnf").getD openssl_cnf) ∧
    fsRead (create_default_config_files d fs) "ca/v3_ca.cnf" =
      some ((fsRead fs "ca/v3_ca.cnf").getD v3_ca_cnf) ∧
    fsRead (create_default_config_files d fs) "ca/v3_req.cnf" =
      some ((fsRead fs "ca/v3_req.cnf").getD v3_req_cnf) ∧
    fsRead (create_default_config_files d fs) (subjPath d) =
      some ((fsRead fs (subjPath d)).getD (domain_subj d)) ∧
    ((d ≠ "openssl" ∧ d ≠ "v3_ca" ∧ d ≠ "v3_req") →
      fsRead (create_default_config_files d fs) (cnfPath d) =
        some ((fsRead fs (cnfPath d)).getD (domain_cnf d))) := by
  have hu : create_default_config_files d fs =
      writeIfAbsent (writeIfAbsent (writeIfAbsent (writeIfAbsent
        (writeIfAbsent fs "ca/openssl.cnf" openssl_cnf)
        "ca/v3_ca.cnf" v3_ca_cnf) "ca/v3_req.cnf" v3_req_cnf)
        (cnfPath d) (domain_cnf d)) (subjPath d) (domain_subj d) := rfl
  have x1 : fsExists (writeIfAbsent fs "ca/openssl.cnf" openssl_cnf) "ca/openssl.cnf" = true :=
    wia_exists_self fs _ _
  have x2 := wia_exists_mono _ "ca/v3_ca.cnf" v3_ca_cnf _ x1
  have x3 := wia_exists_mono _ "ca/v3_req.cnf" v3_req_cnf _ x2
  have x4 := wia_exists_mono _ (cnfPath d) (domain_cnf d) _ x3
  have x5 := wia_exists_mono _ (subjPath d) (domain_subj d) _ x4
  have y2 : fsExists (writeIfAbsent (writeIfAbsent fs "ca/openssl.cnf" openssl_cnf)
      "ca/v3_ca.cnf" v3_ca_cnf) "ca/v3_ca.cnf" = true := wia_exists_self _ _ _
  have y3 := wia_exists_mono _ "ca/v3_req.cnf" v3_req_cnf _ y2
  have y4 := wia_exists_mono _ (cnfPath d) (domain_cnf d) _ y3
  have y5 := wia_exists_mono _ (subjPath d) (domain_subj d) _ y4
  have z3 : fsExists (writeIfAbsent (writeIfAbsent (writeIfAbsent fs "ca/openssl.cnf" openssl_cnf)
      "ca/v3_ca.cnf" v3_ca_cnf) "ca/v3_req.cnf" v3_req_cnf) "ca/v3_req.cnf" = true :=
    wia_exists_self _ _ _
  have z4 := wia_exists_mono _ (cnfPath d) (domain_cnf d) _ z3
  have z5 := wia_exists_mono _ (subjPath d) (domain_subj d) _ z4
  have w4 : fsExists (writeIfAbsent (writeIfAbsent (writeIfAbsent (writeIfAbsent fs
      "ca/openssl.cnf" openssl_cnf) "ca/v3_ca.cnf" v3_ca_cnf) "ca/v3_req.cnf" v3_req_cnf)
      (cnfPath d) (domain_cnf d)) (cnfPath d) = true := wia_exists_self _ _ _
  have w5 := wia_exists_mono _ (subjPath d) (domain_subj d) _ w4
  have v5 : fsExists (create_default_config_files d fs) (subjPath d) = true := by
    rw [hu]; exact wia_exists_self _ _ _
  have X5 : fsExists (create_default_config_files d fs) "ca/openssl.cnf" = true := by
    rw [hu]; exact x5
  have Y5 : fsExists (create_default_config_files d fs) "ca/v3_ca.cnf" = true := by
    rw [hu]; exact y5
  have Z5 : fsExists (create_default_config_files d fs) "ca/v3_req.cnf" = true := by
    rw [hu]; exact z5
  have W5 : fsExists (create_default_config_files d fs) (cnfPath d) = true := by
    rw [hu]; exact w5
  refine ⟨?_, ?_, ?_, ?_, ?_, ?_⟩
  · have ho : create_default_config_files d (create_default_config_files d fs) =
        writeIfAbsent (writeIfAbsent (writeIfAbsent (writeIfAbsent
          (writeIfAbsent (create_default_config_files d fs) "ca/openssl.cnf" openssl_cnf)
          "ca/v3_ca.cnf" v3_ca_cnf) "ca/v3_req.cnf" v3_req_cnf)
          (cnfPath d) (domain_cnf d)) (subjPath d) (domain_subj d) := rfl
    rw [ho]
    rw [wia_skip _ _ _ X5, wia_skip _ _ _ Y5, wia_skip _ _ _ Z5,
        wia_skip _ _ _ W5, wia_skip _ _ _ v5]
  · rw [hu]
    rw [wia_read_preserve _ _ _ _ x4, wia_read_preserve _ _ _ _ x3,
        wia_read_preserve _ _ _ _ x2, wia_read_preserve _ _ _ _ x1]
    exact wia_read_self fs _ _
  · rw [hu]
    rw [wia_read_preserve _ _ _ _ y4, wia_read_preserve _ _ _ _ y3,
        wia_read_preserve _ _ _ _ y2]
    rw [wia_read_self _ _ _]
    rw [wia_read_ne fs _ _ _ (by decide)]
  · rw [hu]
    rw [wia_read_preserve _ _ _ _ z4, wia_read_preserve _ _ _ _ z3]
    rw [wia_read_self _ _ _]
    rw [wia_read_ne _ _ _ _ (by decide), wia_read_ne fs _ _ _ (by decide)]
  · rw [hu]
    rw [wia_read_self _ _ _]
    rw [wia_read_ne _ _ _ _ (subj_ne_cnf d), wia_read_ne _ _ _ _ (subj_ne_v3req d),
        wia_read_ne _ _ _ _ (subj_ne_v3ca d), wia_read_ne fs _ _ _ (subj_ne_openssl d)]
  · rintro ⟨g1, g2, g3⟩
    rw [hu]
    rw [wia_read_ne _ _ _ _ (Ne.symm (subj_ne_cnf d))]
    rw [wia_read_self _ _ _]
    rw [wia_read_ne _ _ _ _ (cnfPath_ne_v3req d g3), wia_read_ne _ _ _ _ (cnfPath_ne_v3ca d g2),
        wia_read_ne fs _ _ _ (cnfPath_ne_openssl d g1)]

/-- C1 (amended): when a required artifact is missing, leaf issuance dies
with a message naming the first absent artifact in the fixed check order,
and the state — filesystem, temp registry and trace — is exactly the entry
state: no command ran, no file changed, no cryptographic operation was
attempted. -/
theorem c1_missing_first_abort (eng : Engine) (d : String) (s : PState) (p : String)
    (h : firstMissing s.fs (requiredFiles d) = some p) :
    generate_server_cert eng d s = Outcome.died ("缺少必要文件: " ++ p) s := by
  simp [generate_server_cert, h]

/-- C1 counterexample: with both the CA key and the CA certificate absent,
the failure message names only `ca/ca.key` — it does not enumerate the
equally missing `ca/ca.crt`. -/
theorem c1_counterexample :
    fsExists cexSt.fs "ca/ca.key" = false ∧
    fsExists cexSt.fs "ca/ca.crt" = false ∧
    generate_server_cert engW "example.com" cexSt =
      Outcome.died ("缺少必要文件: " ++ "ca/ca.key") cexSt ∧
    strMentions ("缺少必要文件: " ++ "ca/ca.key") "ca/ca.crt" = false := by
  refine ⟨by decide, by decide, by decide, by decide⟩

/-- C1 witness: the amended theorem applied at a concrete state missing the
CA key and certificate. -/
theorem c1_witness :
    firstMissing cexSt.fs (requiredFiles "example.com") = some "ca/ca.key" ∧
    generate_server_cert engW "example.com" cexSt =
      Outcome.died ("缺少必要文件: " ++ "ca/ca.key") cexSt := by
  have h : firstMissing cexSt.fs (requiredFiles "example.com") = some "ca/ca.key" := by decide
  exact ⟨h, c1_missing_first_abort engW "example.com" cexSt "ca/ca.key" h⟩

/-- C6: the leaf certificate is signed with a fixed one-year validity
(`-days 365`), the CA certificate with a fixed 36500-day validity — at
least 50 years — so the leaf validity is strictly shorter than the CA's;
both figures appear verbatim in the respective openssl commands. -/
theorem c6_validity_windows :
    leafDays = 365 ∧ 50 * 365 ≤ caDays ∧ leafDays < caDays ∧
    strMentions caCertCmd ("-days " ++ toString caDays) = true ∧
    strMentions (signCmd "example.com" mkstempPath) ("-days " ++ toString leafDays) = true := by
  refine ⟨rfl, by decide, by decide, by decide, by decide⟩

theorem caFinal_key (eng : Engine) (s : PState) :
    fsRead (caFinal eng s).fs "ca/ca.key" = some (eng.rsaKey s.ctr) := by
  have n1 : ("ca/ca.key" : String) ≠ "ca/ca.crt" := by decide
  simp [caFinal, caCertEff, caKeyEff, addCmd, fsRead_write_self, fsRead_write_ne, n1]

theorem caFinal_crt (eng : Engine) (s : PState) :
    fsRead (caFinal eng s).fs "ca/ca.crt" = some (eng.selfSigned (eng.rsaKey s.ctr)) := by
  simp [caFinal, caCertEff, caKeyEff, addCmd, fsRead_write_self]

theorem caFinal_ctr (eng : Engine) (s : PState) : (caFinal eng s).ctr = s.ctr + 1 := rfl

theorem caFinal_trace (eng : Engine) (s : PState) :
    (caFinal eng s).trace = s.trace ++ [Ev.cmd caKeyCmd, Ev.cmd caCertCmd] := by
  simp [caFinal, caCertEff, caKeyEff, addCmd]

/-- C3: CA issuance is unconditionally non-idempotent: on any state —
whether or not a CA key/cert already exists — a successful run executes
exactly the key-generation and self-sign commands and overwrites
`ca/ca.key` and `ca/ca.crt` with the freshly generated material, and a
second run (fresh material assumed distinct, as randomness guarantees)
produces a key and certificate different from the first run's. -/
theorem c3_ca_rotation (eng : Engine) (s t u : PState)
    (h1 : generate_ca_cert eng s = Outcome.ok () t)
    (h2 : generate_ca_cert eng t = Outcome.ok () u)
    (hk : eng.rsaKey s.ctr ≠ eng.rsaKey (s.ctr + 1))
    (hc : eng.selfSigned (eng.rsaKey s.ctr) ≠ eng.selfSigned (eng.rsaKey (s.ctr + 1))) :
    fsRead t.fs "ca/ca.key" = some (eng.rsaKey s.ctr) ∧
    fsRead t.fs "ca/ca.crt" = some (eng.selfSigned (eng.rsaKey s.ctr)) ∧
    fsRead u.fs "ca/ca.key" = some (eng.rsaKey (s.ctr + 1)) ∧
    fsRead u.fs "ca/ca.crt" = some (eng.selfSigned (eng.rsaKey (s.ctr + 1))) ∧
    fsRead t.fs "ca/ca.key" ≠ fsRead u.fs "ca/ca.key" ∧
    fsRead t.fs "ca/ca.crt" ≠ fsRead u.fs "ca/ca.crt" ∧
    t.trace = s.trace ++ [Ev.cmd caKeyCmd, Ev.cmd caCertCmd] ∧
    u.trace = t.trace ++ [Ev.cmd caKeyCmd, Ev.cmd caCertCmd] := by
  obtain ⟨-, -, ht⟩ := gen_ca_ok_elim eng s t h1
  subst ht
  obtain ⟨-, -, hu⟩ := gen_ca_ok_elim eng (caFinal eng s) u h2
  subst hu
  have k1 := caFinal_key eng s
  have c1 := caFinal_crt eng s
  have k2 := caFinal_key eng (caFinal eng s)
  have c2 := caFinal_crt eng (caFinal eng s)
  rw [caFinal_ctr] at k2 c2
  refine ⟨k1, c1, k2, c2, ?_, ?_, caFinal_trace eng s, caFinal_trace eng (caFinal eng s)⟩
  · rw [k1, k2]
    intro e
    exact hk (Option.some.inj e)
  · rw [c1, c2]
    intro e
    exact hc (Option.some.inj e)

/-- C3 witness: two consecutive concrete CA issuance runs succeed and yield
different key and certificate bytes. -/
theorem c3_witness :
    generate_ca_cert engW stFull = Outcome.ok () caResA ∧
    generate_ca_cert engW caResA = Outcome.ok () caResB ∧
    fsRead caResA.fs "ca/ca.key" ≠ fsRead caResB.fs "ca/ca.key" ∧
    fsRead caResA.fs "ca/ca.crt" ≠ fsRead caResB.fs "ca/ca.crt" := by
  have hA : generate_ca_cert engW stFull = Outcome.ok () caResA := rfl
  have hB : generate_ca_cert engW caResA = Outcome.ok () caResB := rfl
  have hfacts := c3_ca_rotation engW stFull caResA caResB hA hB (by decide) (by decide)
  exact ⟨hA, hB, hfacts.2.2.2.2.1, hfacts.2.2.2.2.2.1⟩

/-- C4 counterexample: a successful CA issuance executes exactly the two
commands `caKeyCmd` and `caCertCmd`, and neither mentions the `v3_ca`
extension profile, any configuration or extension flag, or any extension
setting: the operation supplies no extension profile at all. -/
theorem c4_counterexample :
    generate_ca_cert engW stFull = Outcome.ok () caResA ∧
    caResA.trace = [Ev.cmd caKeyCmd, Ev.cmd caCertCmd] ∧
    strMentions caCertCmd "v3_ca" = false ∧
    strMentions caCertCmd "-config" = false ∧
    strMentions caCertCmd "-extfile" = false ∧
    strMentions caCertCmd "-extensions" = false ∧
    strMentions caCertCmd "basicConstraints" = false ∧
    strMentions caCertCmd "keyUsage" = false ∧
    strMentions caKeyCmd "basicConstraints" = false ∧
    strMentions caKeyCmd "keyUsage" = false := by
  refine ⟨rfl, by decide, by decide, by decide, by decide, by decide, by decide, by decide,
    by decide, by decide⟩

set_option maxRecDepth 40000 in
/-- C4 (amended): the config materializer's templates do define a CA
extension profile with `basicConstraints = critical, CA:true` and the six
standard CA key-usage bits, but CA issuance never supplies it: the
self-signed certificate command carries only `-x509`, the validity, the key,
the output and a literal subject, and references no configuration file, no
extension section and no extension setting, so the certificate's extensions
are whatever the external tool's defaults produce. -/
theorem c4_no_extension_profile :
    strMentions openssl_cnf "[ v3_ca ]" = true ∧
    strMentions v3_ca_cnf "basicConstraints       = critical, CA:true" = true ∧
    strMentions v3_ca_cnf
      "keyUsage               = cRLSign, keyCertSign, digitalSignature, nonRepudiation, keyEncipherment, dataEncipherment" = true ∧
    strMentions caCertCmd "-x509" = true ∧
    strMentions caCertCmd "-days 36500" = true ∧
    strMentions caCertCmd "-subj" = true ∧
    strMentions caCertCmd "v3_ca" = false ∧
    strMentions caCertCmd "-config" = false ∧
    strMentions caCertCmd "-extfile" = false ∧
    strMentions caCertCmd "-extensions" = false := by
  refine ⟨by decide, by decide, by decide, by decide, by decide, by decide, by decide,
    by decide, by decide, by decide⟩

theorem leafFinal_tmp (eng : Engine) (d : String) (s : PState) :
    fsRead (leafFinal eng d s).fs mkstempPath = some (mergedOf s d) := by
  have n1 : mkstempPath ≠ csrPath d := Ne.symm (csr_ne_tmp d)
  have n2 : mkstempPath ≠ crtPath d := Ne.symm (crt_ne_tmp d)
  have n3 : mkstempPath ≠ "ca/ca.srl" := Ne.symm srl_ne_tmp
  have n4 : mkstempPath ≠ keyPath d := Ne.symm (key_ne_tmp d)
  have n5 : mkstempPath ≠ pk8Path d := Ne.symm (pk8_ne_tmp d)
  simp [leafFinal, removeCsrEff, signEff, addCmd, csrEff, moveKeyEff, pkcs8Eff, leafKeyEff,
    mkTempEff, fsMove, fsRead_write_self, fsRead_write_ne, fsRead_remove_ne,
    n1, n2, n3, n4, n5]

theorem leafFinal_temps (eng : Engine) (d : String) (s : PState) :
    (leafFinal eng d s).temp_files = s.temp_files ++ [mkstempPath] := by
  simp [leafFinal, removeCsrEff, signEff, addCmd, csrEff, moveKeyEff, pkcs8Eff, leafKeyEff,
    mkTempEff]

theorem leafFinal_trace (eng : Engine) (d : String) (s : PState) :
    (leafFinal eng d s).trace = s.trace ++
      [Ev.mkTemp mkstempPath (mergedOf s d), Ev.cmd (leafKeyCmd d), Ev.cmd (pkcs8Cmd d),
       Ev.move (pk8Path d) (keyPath d), Ev.cmd (csrCmd d mkstempPath (subjOf s d)),
       Ev.cmd (signCmd d mkstempPath), Ev.del (csrPath d)] := by
  simp [leafFinal, removeCsrEff, signEff, addCmd, csrEff, moveKeyEff, pkcs8Eff, leafKeyEff,
    mkTempEff]

theorem leafFinal_key (eng : Engine) (d : String) (s : PState) :
    fsRead (leafFinal eng d s).fs (keyPath d) = some (eng.pkcs8 (eng.rsaKey s.ctr)) := by
  have n1 : keyPath d ≠ csrPath d := key_ne_csr d
  have n2 : keyPath d ≠ crtPath d := key_ne_crt d
  have n3 : keyPath d ≠ "ca/ca.srl" := key_ne_srl d
  simp [leafFinal, removeCsrEff, signEff, addCmd, csrEff, moveKeyEff, pkcs8Eff, leafKeyEff,
    mkTempEff, fsMove, fsRead_write_self, fsRead_write_ne, fsRead_remove_ne, n1, n2, n3]

theorem leafFinal_pk8 (eng : Engine) (d : String) (s : PState) :
    fsRead (leafFinal eng d s).fs (pk8Path d) = none := by
  have n1 : pk8Path d ≠ csrPath d := pk8_ne_csr d
  have n2 : pk8Path d ≠ crtPath d := pk8_ne_crt d
  have n3 : pk8Path d ≠ "ca/ca.srl" := pk8_ne_srl d
  have n4 : pk8Path d ≠ keyPath d := pk8_ne_key d
  simp [leafFinal, removeCsrEff, signEff, addCmd, csrEff, moveKeyEff, pkcs8Eff, leafKeyEff,
    mkTempEff, fsMove, fsRead_write_ne, fsRead_remove_ne, fsRead_remove_self, n1, n2, n3, n4]

theorem leafFinal_csr (eng : Engine) (d : String) (s : PState) :
    fsRead (leafFinal eng d s).fs (csrPath d) = none := by
  simp [leafFinal, removeCsrEff, fsRead_remove_self]

/-- C5: for every domain, in any successful leaf issuance the merged profile
materialized in the tracked temp file is exactly the on-disk shared base
template, then the leaf-extensions template, then the domain SAN block,
concatenated in that order (newline-joined); a later section definition in
this merged text therefore overrides an earlier one under standard
layered-config semantics. -/
theorem c5_merge_order (eng : Engine) (d : String) (s t : PState)
    (h : generate_server_cert eng d s = Outcome.ok () t) :
    fsRead t.fs mkstempPath =
      some ((fsRead s.fs "ca/openssl.cnf").getD "" ++ "\n" ++
            (fsRead s.fs "ca/v3_req.cnf").getD "" ++ "\n" ++
            (fsRead s.fs (cnfPath d)).getD "") ∧
    mkstempPath ∈ t.temp_files := by
  obtain ⟨-, -, -, -, -, ht⟩ := gen_server_ok_elim eng d s t h
  subst ht
  refine ⟨leafFinal_tmp eng d s, ?_⟩
  rw [leafFinal_temps eng d s]
  simp

/-- C5 witness: a concrete successful leaf issuance leaves the merged
profile `"A\nC\nD"` in the tracked temp file. -/
theorem c5_witness :
    generate_server_cert engW "example.com" stFull = Outcome.ok () srvRes ∧
    fsRead srvRes.fs mkstempPath = some "A\nC\nD" ∧
    mkstempPath ∈ srvRes.temp_files := by
  have h : generate_server_cert engW "example.com" stFull = Outcome.ok () srvRes := rfl
  have hc := c5_merge_order engW "example.com" stFull srvRes h
  exact ⟨h, by rw [hc.1]; decide, hc.2⟩

/-- C9: every successful leaf issuance performs exactly, and in exactly this
order: merged-profile materialization, leaf key generation, PKCS#8
re-encoding, replacement of the original key file by the re-encoded one,
CSR construction, CA signing, CSR removal; afterwards the on-disk leaf key
is the PKCS#8 re-encoding of the freshly generated key, the transient
`.key.pkcs8` file is gone, and the CSR is gone. -/
theorem c9_step_order (eng : Engine) (d : String) (s t : PState)
    (h : generate_server_cert eng d s = Outcome.ok () t) :
    t.trace = s.trace ++
      [Ev.mkTemp mkstempPath (mergedOf s d), Ev.cmd (leafKeyCmd d), Ev.cmd (pkcs8Cmd d),
       Ev.move (pk8Path d) (keyPath d), Ev.cmd (csrCmd d mkstempPath (subjOf s d)),
       Ev.cmd (signCmd d mkstempPath), Ev.del (csrPath d)] ∧
    fsRead t.fs (keyPath d) = some (eng.pkcs8 (eng.rsaKey s.ctr)) ∧
    fsRead t.fs (pk8Path d) = none ∧
    fsRead t.fs (csrPath d) = none := by
  obtain ⟨-, -, -, -, -, ht⟩ := gen_server_ok_elim eng d s t h
  subst ht
  exact ⟨leafFinal_trace eng d s, leafFinal_key eng d s, leafFinal_pk8 eng d s,
    leafFinal_csr eng d s⟩

set_option maxRecDepth 20000 in
/-- C9 witness: the concrete successful run records exactly the seven steps
in order and leaves the PKCS#8-re-encoded key. -/
theorem c9_witness :
    generate_server_cert engW "example.com" stFull = Outcome.ok () srvRes ∧
    srvRes.trace =
      [Ev.mkTemp mkstempPath "A\nC\nD", Ev.cmd (leafKeyCmd "example.com"),
       Ev.cmd (pkcs8Cmd "example.com"), Ev.move (pk8Path "example.com") (keyPath "example.com"),
       Ev.cmd (csrCmd "example.com" mkstempPath "S"), Ev.cmd (signCmd "example.com" mkstempPath),
       Ev.del (csrPath "example.com")] ∧
    fsRead srvRes.fs (keyPath "example.com") = some "P8:RSA0" := by
  have h : generate_server_cert engW "example.com" stFull = Outcome.ok () srvRes := rfl
  have hc := c9_step_order engW "example.com" stFull srvRes h
  refine ⟨h, ?_, ?_⟩
  · rw [hc.1]; decide
  · rw [hc.2.1]; decide

/-- C7: every ephemeral artifact registered with the temp resource manager
is absent from the filesystem when the process terminates, on every exit
path — normal completion and fatal abort alike — because the atexit-hooked
cleanup runs on both branches of `runProcess`. -/
theorem c7_temp_cleanup_all_paths (eng : Engine) (d : String) (s : PState) (p : String)
    (h : p ∈ (runProcess eng d s).1.temp_files) :
    fsRead (runProcess eng d s).1.fs p = none := by
  cases hm : mainRun eng d s with
  | ok a t =>
    have hr : runProcess eng d s = (cleanup_temp_files t, 0) := by simp [runProcess, hm]
    rw [hr] at h ⊢
    exact cleanup_removes t p (by simpa [cleanup_temp_files] using h)
  | died m t =>
    have hr : runProcess eng d s = (cleanup_temp_files t, 1) := by simp [runProcess, hm]
    rw [hr] at h ⊢
    exact cleanup_removes t p (by simpa [cleanup_temp_files] using h)

set_option maxRecDepth 40000 in
/-- C7 witness: in a concrete full process run the merged-profile temp file
is registered and is gone from the final filesystem. -/
theorem c7_witness :
    mkstempPath ∈ (runProcess engW "example.com" stFull).1.temp_files ∧
    fsRead (runProcess engW "example.com" stFull).1.fs mkstempPath = none := by
  have hmem : mkstempPath ∈ (runProcess engW "example.com" stFull).1.temp_files := by decide
  exact ⟨hmem, c7_temp_cleanup_all_paths engW "example.com" stFull mkstempPath hmem⟩

/-- C8: temp-file cleanup is benign: it deletes every tracked path that
exists, treats already-missing files as no-ops while still processing the
rest of the registry (every registered path is absent afterwards, whether or
not it existed), and a second cleanup — a double release of everything — is
an exact no-op on the state. -/
theorem c8_cleanup_benign (s : PState) :
    (∀ p, p ∈ s.temp_files → fsRead (cleanup_temp_files s).fs p = none) ∧
    cleanup_temp_files (cleanup_temp_files s) = cleanup_temp_files s := by
  constructor
  · exact fun p hp => cleanup_removes s p hp
  · have hall : ∀ p, p ∈ (cleanup_temp_files s).temp_files →
        fsRead (cleanup_temp_files s).fs p = none := by
      intro p hp
      exact cleanup_removes s p (by simpa [cleanup_temp_files] using hp)
    have hfix : (cleanup_temp_files s).temp_files.foldl cleanupStep (cleanup_temp_files s).fs =
        (cleanup_temp_files s).fs := foldl_cleanup_all_absent _ _ hall
    show { cleanup_temp_files s with
      fs := (cleanup_temp_files s).temp_files.foldl cleanupStep (cleanup_temp_files s).fs } =
      cleanup_temp_files s
    rw [hfix]

/-- C8 witness: with two registered temp paths of which only the first
exists, cleanup removes the existing one, treats the missing one as a no-op,
and running cleanup twice equals running it once. -/
theorem c8_witness :
    ("/tmp/b" ∈ stTemps.temp_files ∧ fsExists stTemps.fs "/tmp/b" = false) ∧
    fsRead (cleanup_temp_files stTemps).fs "/tmp/a" = none ∧
    fsRead (cleanup_temp_files stTemps).fs "/tmp/b" = none ∧
    cleanup_temp_files (cleanup_temp_files stTemps) = cleanup_temp_files stTemps := by
  have hc := c8_cleanup_benign stTemps
  exact ⟨⟨by decide, by decide⟩, hc.1 "/tmp/a" (by decide), hc.1 "/tmp/b" (by decide), hc.2⟩

/-- C10: when the CA-signing command fails, leaf issuance dies inside the
signing step and the CSR file `ca/<domain>.csr` written by the preceding
step is left behind: it is not registered in the temp-file registry, so the
exit-time cleanup does not touch it and it is still on disk after cleanup
(its `os.remove` lives only on the success path). -/
theorem c10_csr_left_behind (eng : Engine) (d : String) (s : PState)
    (hfm : firstMissing s.fs (requiredFiles d) = none)
    (h1 : eng.ok (leafKeyCmd d) = true) (h2 : eng.ok (pkcs8Cmd d) = true)
    (h3 : eng.ok (csrCmd d mkstempPath (subjOf s d)) = true)
    (h4 : eng.ok (signCmd d mkstempPath) = false)
    (h5 : csrPath d ∉ s.temp_files) :
    generate_server_cert eng d s =
      Outcome.died (cmdFailMsg eng (signCmd d mkstempPath)) (abortAtSign eng d s) ∧
    csrPath d ∉ (abortAtSign eng d s).temp_files ∧
    (fsRead (cleanup_temp_files (abortAtSign eng d s)).fs (csrPath d)).isSome = true := by
  have hd := gen_server_sign_fail eng d s hfm h1 h2 h3 h4
  have htemps : (abortAtSign eng d s).temp_files = s.temp_files ++ [mkstempPath] := by
    simp [abortAtSign, addCmd, csrEff, moveKeyEff, pkcs8Eff, leafKeyEff, mkTempEff]
  have hnot : csrPath d ∉ (abortAtSign eng d s).temp_files := by
    rw [htemps]
    simp only [List.mem_append, List.mem_singleton]
    rintro (hx | hx)
    · exact h5 hx
    · exact csr_ne_tmp d hx
  have hread : (fsRead (abortAtSign eng d s).fs (csrPath d)).isSome = true := by
    simp [abortAtSign, addCmd, csrEff, fsRead_write_self]
  refine ⟨hd, hnot, ?_⟩
  rw [cleanup_keeps (abortAtSign eng d s) (csrPath d) hnot]
  exact hread

set_option maxRecDepth 20000 in
/-- C10 witness: a concrete run whose signing command fails leaves
`ca/example.com.csr` on disk after exit-time cleanup, untracked by the
registry. -/
theorem c10_witness :
    generate_server_cert engSignFail "example.com" stFull =
      Outcome.died (cmdFailMsg engSignFail (signCmd "example.com" mkstempPath))
        (abortAtSign engSignFail "example.com" stFull) ∧
    csrPath "example.com" ∉ (abortAtSign engSignFail "example.com" stFull).temp_files ∧
    (fsRead (cleanup_temp_files (abortAtSign engSignFail "example.com" stFull)).fs
      (csrPath "example.com")).isSome = true := by
  exact c10_csr_left_behind engSignFail "example.com" stFull (by decide) (by decide)
    (by decide) (by decide) (by decide) (by decide)

/-- C2 witness: the theorem applied at a concrete domain and the empty
filesystem: re-running materialization is a no-op and the domain SAN file
received its default content. -/
theorem c2_witness :
    create_default_config_files "example.com" (create_default_config_files "example.com" []) =
      create_default_config_files "example.com" [] ∧
    fsRead (create_default_config_files "example.com" []) (cnfPath "example.com") =
      some (domain_cnf "example.com") := by
  have hc := c2_config_idempotent "example.com" []
  refine ⟨hc.1, ?_⟩
  have hr := hc.2.2.2.2.2 ⟨by decide, by decide, by decide⟩
  rw [hr]
  rfl
